import Mathlib

/-!
Verification of the delivery-lifecycle core of the `para` repository.

The development shallowly embeds the storage layer
(`server/storage.ts`, i.e. `DatabaseStorage`), the two domain services
(`server/services/barcode.ts`, `server/services/geofencing.ts`) and the
route handlers of `server/routes.ts` that drive them.  The relational
store is modelled as an explicit `Db` record threaded through every
operation; SQL conditional updates become guarded list rewrites; thrown
JS errors become `Except` values.  Timestamps (`Date.now()`, `NOW()`)
and generated identifiers are modelled as caller-supplied parameters,
and free-text notes as a small closed type.  Floating-point geometry in
the geofencing service is modelled over the reals.
-/

/-- Package status enum (`packageStatuses` in `shared/schema.ts`). -/
inductive PkgStatus
  | created
  | assigned
  | picked_up
  | in_transit
  | delivered
  | failed
deriving DecidableEq, Repr

/-- Attendance status enum (`attendanceStatuses` in `shared/schema.ts`). -/
inductive AttStatus
  | present
  | absent
  | pending
  | approved
  | rejected
deriving DecidableEq, Repr

/-- Barcode scan intent (`scanType` in `services/barcode.ts`). -/
inductive ScanType
  | pickup
  | delivery
deriving DecidableEq, Repr

/-- Free-text note values appearing in history/requests, as a closed type:
the default "Manual pickup" note, the "Assigned to kurir ID: …" note written
by `assignPackageToKurir`, and arbitrary caller-supplied note text (`user`). -/
inductive Note
  | manualPickupDefault
  | assignedByStaff (kurirId : Nat)
  | user (code : Nat)
deriving DecidableEq, Repr

/-- A row of the `packages` table, restricted to the mutable state the core
manipulates (`status`, `assigned_kurir_id`, `delivered_at`, `updated_at`)
plus the identifiers used for lookup and `created_at`, the ordering key of
the `getPackages` listing query.  Descriptive fields (recipient, weight, …)
are immutable after creation and play no role in the claims. -/
structure Pkg where
  id : Nat
  barcode : Nat
  status : PkgStatus
  assignedKurirId : Option Nat
  deliveredAt : Option Nat
  createdAt : Nat
  updatedAt : Nat
deriving DecidableEq, Repr

/-- A row of `package_status_history` (audit trail). -/
structure HistoryRow where
  packageId : Nat
  fromStatus : Option PkgStatus
  toStatus : PkgStatus
  changedBy : Nat
  notes : Option Note
deriving DecidableEq, Repr

/-- A row of `barcode_scan_logs`. -/
structure ScanLog where
  packageId : Nat
  scannedBy : Nat
  scanType : ScanType
  location : Option (ℚ × ℚ)
deriving DecidableEq, Repr

/-- A row of the `attendance` table.  Coordinates are decimal columns,
modelled as rationals; timestamps as naturals (`date` at day granularity). -/
structure Att where
  id : Nat
  kurirId : Nat
  date : Nat
  checkInTime : Option Nat
  checkOutTime : Option Nat
  checkInLat : Option ℚ
  checkInLng : Option ℚ
  checkOutLat : Option ℚ
  checkOutLng : Option ℚ
  status : AttStatus
  approvedBy : Option Nat
deriving DecidableEq, Repr

/-- The shared relational store: the four tables the core mutates. -/
structure Db where
  packages : List Pkg
  history : List HistoryRow
  scanLogs : List ScanLog
  attendance : List Att
deriving DecidableEq, Repr

/-- The client-controllable part of `insertPackageSchema`
(`shared/schema.ts` lines 213–217).  The schema is derived from the full
`packages` table omitting only `id`, `createdAt` and `updatedAt`, so a
request body may carry `status` and `assignedKurirId`; both are passed
through by `POST /api/packages` and `DatabaseStorage.createPackage`. -/
structure InsertPkg where
  status : Option PkgStatus
  assignedKurirId : Option Nat
deriving DecidableEq, Repr

/-- `DatabaseStorage.getPackage`: `SELECT … WHERE id = ?` (primary key). -/
def getPackage (db : Db) (id : Nat) : Option Pkg :=
  db.packages.find? (fun p => p.id == id)

/-- The row mutation performed by `updatePackageStatus`'s UPDATE: set
`status`, stamp `updatedAt`, and set `deliveredAt` when entering
`delivered` (the `...(status === "delivered" && { deliveredAt })` spread). -/
def applyStatus (st : PkgStatus) (now : Nat) (p : Pkg) : Pkg :=
  { p with
      status := st
      updatedAt := now
      deliveredAt := if st = PkgStatus.delivered then some now else p.deliveredAt }

/-- The `UPDATE packages SET … WHERE id = ?` statement of
`updatePackageStatus`, applied to the package list. -/
def setStatusRows (db : Db) (id : Nat) (st : PkgStatus) (now : Nat) : Db :=
  { db with
      packages := db.packages.map (fun p => if p.id == id then applyStatus st now p else p) }

/-- The history row appended by `updatePackageStatus`. -/
def mkHistoryRow (id : Nat) (cur : Pkg) (st : PkgStatus) (changedBy : Nat)
    (notes : Option Note) : HistoryRow :=
  { packageId := id
    fromStatus := some cur.status
    toStatus := st
    changedBy := changedBy
    notes := notes }

/-- `DatabaseStorage.updatePackageStatus` (storage.ts lines 167–191): load
the current package (`undefined` when absent), unconditionally apply the
status update, then insert one `package_status_history` row.  The two
statements run back to back on the shared pool with no transaction; no
legality check of the transition is performed. -/
def updatePackageStatus (db : Db) (id : Nat) (st : PkgStatus) (changedBy : Nat)
    (notes : Option Note) (now : Nat) : Option Pkg × Db :=
  match getPackage db id with
  | none => (none, db)
  | some cur =>
      let db1 := setStatusRows db id st now
      (some (applyStatus st now cur),
       { db1 with history := db1.history ++ [mkHistoryRow id cur st changedBy notes] })

/-- `updatePackageStatus` with the outcome of the history INSERT made
explicit (`historyOk = false` models the insert throwing).  Because the
UPDATE is a separate autocommit statement, it is already committed when
the insert runs; on insert failure the error propagates and the package
update remains in the store. -/
def updatePackageStatusFallible (db : Db) (id : Nat) (st : PkgStatus) (changedBy : Nat)
    (notes : Option Note) (now : Nat) (historyOk : Bool) : Except Unit (Option Pkg) × Db :=
  match getPackage db id with
  | none => (Except.ok none, db)
  | some cur =>
      let db1 := setStatusRows db id st now
      if historyOk then
        (Except.ok (some (applyStatus st now cur)),
         { db1 with history := db1.history ++ [mkHistoryRow id cur st changedBy notes] })
      else
        (Except.error (), db1)

/-- The WHERE clause of the conditional UPDATE in
`DatabaseStorage.assignPackageToKurir`:
`assigned_kurir_id IS NULL OR status = 'created'` (note: OR, not AND). -/
def claimGuard (p : Pkg) : Bool :=
  p.assignedKurirId == none || p.status == PkgStatus.created

/-- The SET clause of that UPDATE:
`assigned_kurir_id = ?, status = 'assigned', updated_at = NOW()`. -/
def claimWrite (now : Nat) (kurirId : Nat) (p : Pkg) : Pkg :=
  { p with assignedKurirId := some kurirId, status := PkgStatus.assigned, updatedAt := now }

/-- `DatabaseStorage.assignPackageToKurir` (storage.ts lines 295–341): one
transaction holding a single conditional UPDATE; zero rows updated means
rollback and a thrown error, otherwise a history row (hardcoding
`from_status = 'created'`) is inserted and the transaction commits.  (The
history insert sits in a try/catch whose failure is swallowed; that path
does not matter for the claims about this function.) -/
def assignPackageToKurir (db : Db) (packageId kurirId assignedBy : Nat) (now : Nat) :
    Except Unit Pkg × Db :=
  match db.packages.find? (fun p => p.id == packageId && claimGuard p) with
  | none => (Except.error (), db)
  | some p =>
      let pkgs := db.packages.map
        (fun q => if q.id == packageId && claimGuard q then claimWrite now kurirId q else q)
      let row : HistoryRow :=
        { packageId := packageId
          fromStatus := some PkgStatus.created
          toStatus := PkgStatus.assigned
          changedBy := assignedBy
          notes := some (Note.assignedByStaff kurirId) }
      (Except.ok (claimWrite now kurirId p),
       { db with packages := pkgs, history := db.history ++ [row] })

/-- `DatabaseStorage.createPackage` (storage.ts lines 140–155): generates
`packageId`/`barcode` (modelled as the caller-supplied fresh `newBarcode`),
takes `status` from the insert data with `|| "created"` defaulting, and
passes `assignedKurirId` through untouched. -/
def createPackage (db : Db) (data : InsertPkg) (newId newBarcode : Nat) (now : Nat) :
    Pkg × Db :=
  let p : Pkg :=
    { id := newId
      barcode := newBarcode
      status := data.status.getD PkgStatus.created
      assignedKurirId := data.assignedKurirId
      deliveredAt := none
      createdAt := now
      updatedAt := now }
  (p, { db with packages := db.packages ++ [p] })

/-- `DatabaseStorage.logBarcodeScan`. -/
def logBarcodeScan (db : Db) (packageId scannedBy : Nat) (scanType : ScanType)
    (location : Option (ℚ × ℚ)) : Db :=
  { db with scanLogs := db.scanLogs ++
      [{ packageId := packageId, scannedBy := scannedBy, scanType := scanType,
         location := location }] }

/-- `DatabaseStorage.getAttendanceByDate`: the day-range query, at day
granularity. -/
def getAttendanceByDate (db : Db) (kurirId : Nat) (date : Nat) : Option Att :=
  db.attendance.find? (fun a => a.kurirId == kurirId && a.date == date)

/-- `DatabaseStorage.updateAttendanceStatus` (storage.ts lines 384–391):
`UPDATE attendance SET status = ?, approved_by = ? WHERE id = ?` and return
the updated row (`undefined` when absent).  It takes exactly three data
arguments; the `notes` value that the approve route passes as a fourth
argument is silently dropped. -/
def updateAttendanceStatus (db : Db) (id : Nat) (st : AttStatus) (approvedBy : Nat) :
    Option Att × Db :=
  match db.attendance.find? (fun a => a.id == id) with
  | none => (none, db)
  | some a =>
      let rows := db.attendance.map
        (fun b => if b.id == id then { b with status := st, approvedBy := some approvedBy }
                  else b)
      (some { a with status := st, approvedBy := some approvedBy },
       { db with attendance := rows })

/-- Domain errors surfaced by the handlers (HTTP status + message pairs in
`routes.ts`, thrown strings in the services). -/
inductive ApiError
  | notFound
  | notAvailable
  | alreadyTaken
  | assignConflict
  | scanNotFound
  | notReadyForPickup
  | notReadyForDelivery
  | notAssignedToYou
  | notesRequired
  | noCheckInToday
  | alreadyCheckedOut
deriving DecidableEq, Repr

/-- `POST /api/packages/:id/take` (routes.ts lines 184–211): read the
package, two route-level prechecks (`status === "created"`,
`assignedKurirId` null), then the conditional-update claim in
`assignPackageToKurir`; a thrown conflict surfaces as a 500 (`assignConflict`). -/
def takePackage (db : Db) (packageId kurirId : Nat) (now : Nat) :
    Except ApiError Pkg × Db :=
  match getPackage db packageId with
  | none => (Except.error ApiError.notFound, db)
  | some p =>
      if p.status != PkgStatus.created then (Except.error ApiError.notAvailable, db)
      else if p.assignedKurirId.isSome then (Except.error ApiError.alreadyTaken, db)
      else
        match assignPackageToKurir db packageId kurirId kurirId now with
        | (Except.ok q, db') => (Except.ok q, db')
        | (Except.error _, db') => (Except.error ApiError.assignConflict, db')

/-- `DatabaseStorage.getPackages` (storage.ts lines 248–293): the listing
query `SELECT … ORDER BY created_at DESC ${limitClause}`, where the limit
clause defaults to `LIMIT 50` when no limit is passed.  Only the `limit`
most recently created rows are visible to callers.  (The surrounding
try/catch returns `[]` on a raw store failure; store-level faults are
outside this model, here as everywhere else in the development.) -/
def getPackages (db : Db) (limit : Nat) : List Pkg :=
  (db.packages.insertionSort (fun p q => q.createdAt ≤ p.createdAt)).take limit

/-- `BarcodeService.scanBarcode` (barcode.ts lines 10–41): fetch
`storage.getPackages()` — with no argument, i.e. the 50 most recently
created rows — and `find` the barcode in that window, so a package outside
the window is reported not-found even if it exists; then validate the scan
type against the current status (`pickup` only from `assigned`, `delivery`
only from `in_transit`), `updatePackageStatus` and `logBarcodeScan`.
Returns the pre-update package object, as the source does. -/
def scanBarcode (db : Db) (barcode : Nat) (scannedBy : Nat) (scanType : ScanType)
    (location : Option (ℚ × ℚ)) (now : Nat) : Except ApiError Pkg × Db :=
  match (getPackages db 50).find? (fun p => p.barcode == barcode) with
  | none => (Except.error ApiError.scanNotFound, db)
  | some p =>
      if scanType == ScanType.pickup && p.status != PkgStatus.assigned then
        (Except.error ApiError.notReadyForPickup, db)
      else if scanType == ScanType.delivery && p.status != PkgStatus.in_transit then
        (Except.error ApiError.notReadyForDelivery, db)
      else
        let newStatus := if scanType == ScanType.pickup then PkgStatus.picked_up
                         else PkgStatus.delivered
        let r := updatePackageStatus db p.id newStatus scannedBy none now
        (Except.ok p, logBarcodeScan r.2 p.id scannedBy scanType location)

/-- `POST /api/packages/:id/pickup` (routes.ts lines 232–264): requires
status exactly `assigned` and the caller to be the assigned courier, then
`updatePackageStatus` to `picked_up` (note defaulting to "Manual pickup")
and a scan-log entry. -/
def manualPickup (db : Db) (packageId kurirId : Nat) (notes : Option Note) (now : Nat) :
    Except ApiError (Option Pkg) × Db :=
  match getPackage db packageId with
  | none => (Except.error ApiError.notFound, db)
  | some p =>
      if p.status != PkgStatus.assigned then (Except.error ApiError.notReadyForPickup, db)
      else if p.assignedKurirId != some kurirId then
        (Except.error ApiError.notAssignedToYou, db)
      else
        let r := updatePackageStatus db packageId PkgStatus.picked_up kurirId
          (some (notes.getD Note.manualPickupDefault)) now
        (Except.ok r.1, logBarcodeScan r.2 packageId kurirId ScanType.pickup none)

/-- `POST /api/packages/:id/delivery` (routes.ts lines 267–303): requires a
non-blank note (`!notes || !notes.trim()`, modelled as presence of a
`Note`), status in `{picked_up, in_transit}`, and the caller to be the
assigned courier; then `updatePackageStatus` to `delivered` and a scan-log
entry. -/
def manualDelivery (db : Db) (packageId kurirId : Nat) (notes : Option Note) (now : Nat) :
    Except ApiError (Option Pkg) × Db :=
  match notes with
  | none => (Except.error ApiError.notesRequired, db)
  | some note =>
      match getPackage db packageId with
      | none => (Except.error ApiError.notFound, db)
      | some p =>
          if !(p.status == PkgStatus.picked_up || p.status == PkgStatus.in_transit) then
            (Except.error ApiError.notReadyForDelivery, db)
          else if p.assignedKurirId != some kurirId then
            (Except.error ApiError.notAssignedToYou, db)
          else
            let r := updatePackageStatus db packageId PkgStatus.delivered kurirId
              (some note) now
            (Except.ok r.1, logBarcodeScan r.2 packageId kurirId ScanType.delivery none)

/-- `PUT /api/attendance/:id/approve` (routes.ts lines 403–418), the
handler body that runs after the role middleware: it calls
`updateAttendanceStatus(id, status, req.user.id, notes)` directly — there
is no check that the reviewer differs from the record's owner, and the
`notes` argument is dropped by the three-parameter storage function. -/
def approveAttendance (db : Db) (id : Nat) (st : AttStatus) (reviewerId : Nat) :
    Except ApiError Att × Db :=
  match updateAttendanceStatus db id st reviewerId with
  | (none, db') => (Except.error ApiError.notFound, db')
  | (some a, db') => (Except.ok a, db')

/-- `POST /api/attendance/checkout` (routes.ts lines 338–364): destructures
`lat`/`lng` from the body but never uses them (no geofence validation and
no coordinate write); loads today's record, guards on `checkOutTime`
already set, then calls `updateAttendanceStatus(id, "present", kurirId)` —
which only writes `status` and `approvedBy`. -/
def checkoutAttendance (db : Db) (kurirId : Nat) (lat lng : ℚ) (today : Nat) :
    Except ApiError (Option Att) × Db :=
  match getAttendanceByDate db kurirId today with
  | none => (Except.error ApiError.noCheckInToday, db)
  | some a =>
      if a.checkOutTime.isSome then (Except.error ApiError.alreadyCheckedOut, db)
      else
        let r := updateAttendanceStatus db a.id AttStatus.present kurirId
        (Except.ok r.1, r.2)

/-- A geofence zone (`geofence_zones`): circular area, decimal-degree
center (parsed with `parseFloat`, modelled over ℝ), radius in meters,
and the `is_active` flag. -/
structure Zone where
  id : Nat
  centerLat : ℝ
  centerLng : ℝ
  radius : Nat
  isActive : Bool

/-- `Math.atan2` over the reals (standard quadrant-correct arctangent;
`calculateDistance` only ever calls it with non-negative arguments). -/
noncomputable def atan2 (y x : ℝ) : ℝ :=
  if 0 < x then Real.arctan (y / x)
  else if x < 0 then
    (if 0 ≤ y then Real.arctan (y / x) + Real.pi else Real.arctan (y / x) - Real.pi)
  else
    (if 0 < y then Real.pi / 2 else if y < 0 then -(Real.pi / 2) else 0)

/-- `GeofencingService.calculateDistance` (geofencing.ts lines 4–22):
haversine great-circle distance in meters, Earth radius 6371e3. -/
noncomputable def calculateDistance (lat1 lng1 lat2 lng2 : ℝ) : ℝ :=
  let R : ℝ := 6371000
  let phi1 := lat1 * Real.pi / 180
  let phi2 := lat2 * Real.pi / 180
  let dphi := (lat2 - lat1) * Real.pi / 180
  let dlam := (lng2 - lng1) * Real.pi / 180
  let a := Real.sin (dphi / 2) * Real.sin (dphi / 2) +
      Real.cos phi1 * Real.cos phi2 * Real.sin (dlam / 2) * Real.sin (dlam / 2)
  let c := 2 * atan2 (Real.sqrt a) (Real.sqrt (1 - a))
  R * c

/-- The early-return loop of `GeofencingService.validateLocation`: return
true on the first zone whose center is within `radius` meters. -/
def validateLocationAux (lat lng : ℝ) : List Zone → Prop
  | [] => False
  | z :: rest =>
      calculateDistance lat lng z.centerLat z.centerLng ≤ (z.radius : ℝ) ∨
      validateLocationAux lat lng rest

/-- `GeofencingService.validateLocation` (geofencing.ts lines 24–41): loop
over `getActiveGeofenceZones()` (the rows with `is_active = true`) testing
`distance <= zone.radius`. -/
def validateLocation (zones : List Zone) (lat lng : ℝ) : Prop :=
  validateLocationAux lat lng (zones.filter (fun z => z.isActive))

/-- Outcome of one courier's `take` request: HTTP 200, or any of the
conflict answers (route-level 400s and the thrown "already assigned"
error), which all denote losing the race. -/
inductive ClaimResult
  | success
  | conflict
deriving DecidableEq, Repr

/-- Where a courier's in-flight `POST /packages/:id/take` request stands:
not yet started, holding the snapshot returned by its `getPackage` read,
or finished with a result. -/
inductive ThreadPhase
  | start
  | readDone (snap : Pkg)
  | finished (r : ClaimResult)
deriving DecidableEq, Repr

/-- The two route-level prechecks of the take handler, evaluated on the
snapshot it read: `status === "created"` and `assignedKurirId` null. -/
def precheck (p : Pkg) : Bool :=
  p.status == PkgStatus.created && p.assignedKurirId == none

/-- Global state of the race: the package row plus each courier's request
(courier id, phase).  The history insert that rides inside the winning
transaction does not influence the race and is omitted here; the
sequential model `assignPackageToKurir` carries it. -/
structure ClaimConfig where
  pkg : Pkg
  threads : List (Nat × ThreadPhase)
deriving DecidableEq, Repr

/-- Interleaving semantics of `N` concurrent take requests.  Each atomic
step is one database round trip: the `getPackage` read, or the
conditional-update transaction of `assignPackageToKurir` (`casOk` /
`casFail`, whose guard re-evaluates against the *current* row, exactly as
a conditional `UPDATE` under read-committed does), or a route-level
precheck failure on a stale snapshot. -/
inductive ClaimStep (now : Nat) : ClaimConfig → ClaimConfig → Prop
  | read (c : ClaimConfig) (i k : Nat) :
      c.threads[i]? = some (k, ThreadPhase.start) →
      ClaimStep now c ⟨c.pkg, c.threads.set i (k, ThreadPhase.readDone c.pkg)⟩
  | precheckFail (c : ClaimConfig) (i k : Nat) (snap : Pkg) :
      c.threads[i]? = some (k, ThreadPhase.readDone snap) →
      precheck snap = false →
      ClaimStep now c ⟨c.pkg, c.threads.set i (k, ThreadPhase.finished ClaimResult.conflict)⟩
  | casOk (c : ClaimConfig) (i k : Nat) (snap : Pkg) :
      c.threads[i]? = some (k, ThreadPhase.readDone snap) →
      precheck snap = true →
      claimGuard c.pkg = true →
      ClaimStep now c
        ⟨claimWrite now k c.pkg, c.threads.set i (k, ThreadPhase.finished ClaimResult.success)⟩
  | casFail (c : ClaimConfig) (i k : Nat) (snap : Pkg) :
      c.threads[i]? = some (k, ThreadPhase.readDone snap) →
      precheck snap = true →
      claimGuard c.pkg = false →
      ClaimStep now c ⟨c.pkg, c.threads.set i (k, ThreadPhase.finished ClaimResult.conflict)⟩

/-- Initial configuration: the shared package row and one pending request
per courier id. -/
def initConfig (pkg : Pkg) (ids : List Nat) : ClaimConfig :=
  ⟨pkg, ids.map (fun k => (k, ThreadPhase.start))⟩

/-- Race invariant, phase one: nobody has claimed yet — the row is still
the initial one and every thread is pending or holds the initial snapshot. -/
def NoWinner (pkg0 : Pkg) (c : ClaimConfig) : Prop :=
  c.pkg = pkg0 ∧
    ∀ e ∈ c.threads, e.2 = ThreadPhase.start ∨ e.2 = ThreadPhase.readDone pkg0

/-- Race invariant, phase two: thread `i` (courier `k`) won — the row
carries its conditional update and no other thread ever finishes with
success. -/
def Winner (now : Nat) (pkg0 : Pkg) (c : ClaimConfig) : Prop :=
  ∃ i k, c.threads[i]? = some (k, ThreadPhase.finished ClaimResult.success) ∧
    c.pkg = claimWrite now k pkg0 ∧
    ∀ (j : Nat) (e : Nat × ThreadPhase), j ≠ i → c.threads[j]? = some e →
      e.2 ≠ ThreadPhase.finished ClaimResult.success

/-- The full race invariant: courier ids are fixed, and either nobody has
won yet or there is a unique winner. -/
def ClaimInv (now : Nat) (pkg0 : Pkg) (ids : List Nat) (c : ClaimConfig) : Prop :=
  c.threads.map Prod.fst = ids ∧ (NoWinner pkg0 c ∨ Winner now pkg0 c)

/-- The §3 package invariant: `assignedKurirId` is non-null iff `status`
is not `created`. -/
def pkgInv (p : Pkg) : Prop :=
  p.assignedKurirId.isSome ↔ p.status ≠ PkgStatus.created

/-- Status of the package row with the given id, as a reader would see it. -/
def statusOf (db : Db) (id : Nat) : Option PkgStatus :=
  (getPackage db id).map (fun p => p.status)

/-- Primary-key discipline of the `packages` table: ids are pairwise
distinct (serial primary key). -/
def UniqueIds (db : Db) : Prop :=
  db.packages.Pairwise (fun p q => p.id ≠ q.id)

/-- Fixture: a freshly created, unassigned package row. -/
def egCreatedPkg : Pkg :=
  { id := 1, barcode := 10, status := PkgStatus.created, assignedKurirId := none,
    deliveredAt := none, createdAt := 0, updatedAt := 0 }

/-- Fixture: a store holding one package assigned to courier 5. -/
def egAssignedDb : Db :=
  { packages := [{ id := 1, barcode := 10, status := PkgStatus.assigned,
                   assignedKurirId := some 5, deliveredAt := none, createdAt := 0, updatedAt := 0 }]
    history := [], scanLogs := [], attendance := [] }

/-- Fixture: a store holding one delivered package (terminal state). -/
def egDeliveredDb : Db :=
  { packages := [{ id := 1, barcode := 10, status := PkgStatus.delivered,
                   assignedKurirId := some 5, deliveredAt := some 3, createdAt := 0, updatedAt := 3 }]
    history := [], scanLogs := [], attendance := [] }

/-- Fixture: a pending attendance record owned by courier 5. -/
def egPendingAttDb : Db :=
  { packages := [], history := [], scanLogs := []
    attendance := [{ id := 1, kurirId := 5, date := 0, checkInTime := some 8,
                     checkOutTime := none, checkInLat := some 1, checkInLng := some 2,
                     checkOutLat := none, checkOutLng := none,
                     status := AttStatus.pending, approvedBy := none }] }

/-- Fixture: courier 7 checked in today (open record, not yet checked out),
record already reviewed to `approved` by reviewer 9. -/
def egApprovedAttDb : Db :=
  { packages := [], history := [], scanLogs := []
    attendance := [{ id := 1, kurirId := 7, date := 0, checkInTime := some 8,
                     checkOutTime := none, checkInLat := some 1, checkInLng := some 2,
                     checkOutLat := none, checkOutLng := none,
                     status := AttStatus.approved, approvedBy := some 9 }] }

/-- Fixture: courier 7 checked in today, record still `present`, no
checkout yet. -/
def egOpenAttDb : Db :=
  { packages := [], history := [], scanLogs := []
    attendance := [{ id := 1, kurirId := 7, date := 0, checkInTime := some 8,
                     checkOutTime := none, checkInLat := some 1, checkInLng := some 2,
                     checkOutLat := none, checkOutLng := none,
                     status := AttStatus.present, approvedBy := none }] }

/-- Fixture: the final configuration of a concrete two-courier race on
`egCreatedPkg` (couriers 5 and 6; courier 5 wins). -/
def egRaceFinal : ClaimConfig :=
  ⟨{ id := 1, barcode := 10, status := PkgStatus.assigned, assignedKurirId := some 5,
     deliveredAt := none, createdAt := 0, updatedAt := 7 },
   [(5, ThreadPhase.finished ClaimResult.success),
    (6, ThreadPhase.finished ClaimResult.conflict)]⟩

/-- Fixture: the oldest package of `egManyDb` — created at time 0,
`assigned` to courier 5, barcode 10. -/
def egOldAssignedPkg : Pkg :=
  { id := 1, barcode := 10, status := PkgStatus.assigned, assignedKurirId := some 5,
    deliveredAt := none, createdAt := 0, updatedAt := 0 }

/-- Fixture: a store with 51 packages — `egOldAssignedPkg` (created at 0)
plus 50 fresher `created` packages — so the assigned package falls outside
the 50-row window of `getPackages` and can never be found by a scan. -/
def egManyDb : Db :=
  { packages := egOldAssignedPkg ::
      (List.range 50).map (fun n =>
        { id := n + 2, barcode := n + 100, status := PkgStatus.created,
          assignedKurirId := none, deliveredAt := none,
          createdAt := n + 1, updatedAt := n + 1 })
    history := [], scanLogs := [], attendance := [] }

lemma validateLocationAux_iff (lat lng : ℝ) (l : List Zone) :
    validateLocationAux lat lng l ↔
      ∃ z ∈ l, calculateDistance lat lng z.centerLat z.centerLng ≤ (z.radius : ℝ) := by
  induction l with
  | nil => simp [validateLocationAux]
  | cons z rest ih =>
      simp only [validateLocationAux, ih, List.mem_cons]
      constructor
      · rintro (h | ⟨w, hw, hd⟩)
        · exact ⟨z, Or.inl rfl, h⟩
        · exact ⟨w, Or.inr hw, hd⟩
      · rintro ⟨w, (rfl | hw), hd⟩
        · exact Or.inl hd
        · exact Or.inr ⟨w, hw, hd⟩

/-- C9: `validateLocation(lat, lng)` holds iff some *active* geofence zone
has haversine distance from `(lat, lng)` to its center at most its radius;
the boundary case (distance exactly the radius) is inside, and inactive
zones are never considered. -/
theorem validateLocation_iff_active_zone (zones : List Zone) (lat lng : ℝ) :
    (validateLocation zones lat lng ↔
      ∃ z ∈ zones, z.isActive = true ∧
        calculateDistance lat lng z.centerLat z.centerLng ≤ (z.radius : ℝ)) ∧
    (∀ z ∈ zones, z.isActive = true →
      calculateDistance lat lng z.centerLat z.centerLng = (z.radius : ℝ) →
      validateLocation zones lat lng) := by
  have h := validateLocationAux_iff lat lng (zones.filter (fun z => z.isActive))
  constructor
  · rw [validateLocation, h]
    constructor
    · rintro ⟨z, hz, hd⟩
      rcases List.mem_filter.mp hz with ⟨hmem, hact⟩
      exact ⟨z, hmem, by simpa using hact, hd⟩
    · rintro ⟨z, hmem, hact, hd⟩
      exact ⟨z, List.mem_filter.mpr ⟨hmem, by simp [hact]⟩, hd⟩
  · intro z hz hact hd
    rw [validateLocation, h]
    exact ⟨z, List.mem_filter.mpr ⟨hz, by simp [hact]⟩, le_of_eq hd⟩

/-- C6 (counterexample): reviewing an attendance record with the reviewer
equal to the record's owner (courier 5 reviews their own record 1) does
*not* fail: it succeeds and sets `status`/`approvedBy`, contradicting the
claim that self-approval always fails with `ForbiddenError` and leaves the
record unchanged. -/
theorem review_self_approval_succeeds :
    (approveAttendance egPendingAttDb 1 AttStatus.approved 5).1 =
      Except.ok { id := 1, kurirId := 5, date := 0, checkInTime := some 8,
                  checkOutTime := none, checkInLat := some 1, checkInLng := some 2,
                  checkOutLat := none, checkOutLng := none,
                  status := AttStatus.approved, approvedBy := some 5 } ∧
    (approveAttendance egPendingAttDb 1 AttStatus.approved 5).2.attendance =
      [{ id := 1, kurirId := 5, date := 0, checkInTime := some 8,
         checkOutTime := none, checkInLat := some 1, checkInLng := some 2,
         checkOutLat := none, checkOutLng := none,
         status := AttStatus.approved, approvedBy := some 5 }] := by
  constructor <;> rfl

/-- C6 (amended): the review operation performs no self-approval check at
all — for any existing record, a review by the record's own courier
succeeds like any other review, setting `status` to the decision and
`approvedBy` to the reviewer. -/
theorem review_has_no_self_approval_check (db : Db) (id : Nat) (a : Att) (st : AttStatus)
    (hfind : db.attendance.find? (fun b => b.id == id) = some a) :
    (approveAttendance db id st a.kurirId).1 =
      Except.ok { a with status := st, approvedBy := some a.kurirId } := by
  simp [approveAttendance, updateAttendanceStatus, hfind]

/-- Witness for C6's amended theorem at a concrete store. -/
theorem review_has_no_self_approval_check_witness :
    (approveAttendance egPendingAttDb 1 AttStatus.approved 5).1 =
      Except.ok { id := 1, kurirId := 5, date := 0, checkInTime := some 8,
                  checkOutTime := none, checkInLat := some 1, checkInLng := some 2,
                  checkOutLat := none, checkOutLng := none,
                  status := AttStatus.approved, approvedBy := some 5 } :=
  review_has_no_self_approval_check egPendingAttDb 1
    { id := 1, kurirId := 5, date := 0, checkInTime := some 8,
      checkOutTime := none, checkInLat := some 1, checkInLng := some 2,
      checkOutLat := none, checkOutLng := none,
      status := AttStatus.pending, approvedBy := none }
    AttStatus.approved rfl

/-- C7: the checkout handler never consults the geofence.  Its result is
completely independent of the submitted coordinates, and a checkout at a
location outside every active zone (here: no zones exist at all, so
`validateLocation` rejects every point) still succeeds. -/
theorem checkout_skips_geofence :
    (∀ (db : Db) (k : Nat) (lat lng lat' lng' : ℚ) (today : Nat),
        checkoutAttendance db k lat lng today = checkoutAttendance db k lat' lng' today) ∧
    (¬ validateLocation [] 0 0) ∧
    (checkoutAttendance egOpenAttDb 7 0 0 0).1 =
      Except.ok (some { id := 1, kurirId := 7, date := 0, checkInTime := some 8,
                        checkOutTime := none, checkInLat := some 1, checkInLng := some 2,
                        checkOutLat := none, checkOutLng := none,
                        status := AttStatus.present, approvedBy := some 7 }) :=
  ⟨fun _ _ _ _ _ _ _ => rfl, fun h => h, rfl⟩

/-- C8: a successful checkout (courier 7, coordinates (3,4)) writes
*neither* `checkOutTime` nor the checkout coordinates — they stay null —
and it does change the record's status (here `approved` → `present`) as
well as overwriting `approvedBy` with the courier's own id. -/
theorem checkout_sets_no_checkout_fields :
    (checkoutAttendance egApprovedAttDb 7 3 4 0).1 =
      Except.ok (some { id := 1, kurirId := 7, date := 0, checkInTime := some 8,
                        checkOutTime := none, checkInLat := some 1, checkInLng := some 2,
                        checkOutLat := none, checkOutLng := none,
                        status := AttStatus.present, approvedBy := some 7 }) ∧
    (checkoutAttendance egApprovedAttDb 7 3 4 0).2.attendance =
      [{ id := 1, kurirId := 7, date := 0, checkInTime := some 8,
         checkOutTime := none, checkInLat := some 1, checkInLng := some 2,
         checkOutLat := none, checkOutLng := none,
         status := AttStatus.present, approvedBy := some 7 }] ∧
    (egApprovedAttDb.attendance.map (fun a => a.status) = [AttStatus.approved]) := by
  refine ⟨rfl, rfl, rfl⟩

/-- C3 (counterexample): the illegal transition `delivered → assigned` is
*applied*: `updatePackageStatus` succeeds and the stored row's status
becomes `assigned`, contradicting the claim that it fails with
`IllegalTransitionError` and leaves the package unchanged. -/
theorem illegal_transition_applied :
    (updatePackageStatus egDeliveredDb 1 PkgStatus.assigned 9 none 4).1 =
      some { id := 1, barcode := 10, status := PkgStatus.assigned,
             assignedKurirId := some 5, deliveredAt := some 3, createdAt := 0, updatedAt := 4 } ∧
    statusOf (updatePackageStatus egDeliveredDb 1 PkgStatus.assigned 9 none 4).2 1 =
      some PkgStatus.assigned := by
  constructor <;> rfl

/-- C3 (amended): `updatePackageStatus` checks nothing about the state
machine — for every existing package and *every* target status it applies
the update (returning the updated row, whose status is the raw target) and
appends exactly one history row; only a missing id yields no update. -/
theorem updatePackageStatus_has_no_legality_check (db : Db) (id : Nat) (p : Pkg)
    (st : PkgStatus) (cb : Nat) (notes : Option Note) (now : Nat)
    (hfind : getPackage db id = some p) :
    (updatePackageStatus db id st cb notes now).1 = some (applyStatus st now p) ∧
    (applyStatus st now p).status = st ∧
    (updatePackageStatus db id st cb notes now).2.history =
      db.history ++ [mkHistoryRow id p st cb notes] := by
  refine ⟨?_, rfl, ?_⟩ <;> simp [updatePackageStatus, hfind, setStatusRows]

/-- Witness for C3's amended theorem: the `delivered → assigned` target is
applied on a concrete store. -/
theorem updatePackageStatus_has_no_legality_check_witness :
    (updatePackageStatus egDeliveredDb 1 PkgStatus.assigned 9 none 4).1 =
      some (applyStatus PkgStatus.assigned 4
        { id := 1, barcode := 10, status := PkgStatus.delivered,
          assignedKurirId := some 5, deliveredAt := some 3, createdAt := 0, updatedAt := 3 }) ∧
    (applyStatus PkgStatus.assigned 4
        { id := 1, barcode := 10, status := PkgStatus.delivered,
          assignedKurirId := some 5, deliveredAt := some 3, createdAt := 0, updatedAt := 3 }).status =
      PkgStatus.assigned ∧
    (updatePackageStatus egDeliveredDb 1 PkgStatus.assigned 9 none 4).2.history =
      egDeliveredDb.history ++
        [mkHistoryRow 1
          { id := 1, barcode := 10, status := PkgStatus.delivered,
            assignedKurirId := some 5, deliveredAt := some 3, createdAt := 0, updatedAt := 3 }
          PkgStatus.assigned 9 none] :=
  updatePackageStatus_has_no_legality_check egDeliveredDb 1
    { id := 1, barcode := 10, status := PkgStatus.delivered,
      assignedKurirId := some 5, deliveredAt := some 3, createdAt := 0, updatedAt := 3 }
    PkgStatus.assigned 9 none 4 rfl

/-- C4 (counterexample): when the history insert fails, the status update
*is* observably committed — the stored row is `picked_up` while the history
table is untouched and the error propagates; the operation is not
all-or-nothing. -/
theorem status_update_commits_without_history :
    (updatePackageStatusFallible egAssignedDb 1 PkgStatus.picked_up 5 none 4 false).1 =
      Except.error () ∧
    statusOf (updatePackageStatusFallible egAssignedDb 1 PkgStatus.picked_up 5 none 4 false).2 1 =
      some PkgStatus.picked_up ∧
    (updatePackageStatusFallible egAssignedDb 1 PkgStatus.picked_up 5 none 4 false).2.history =
      ([] : List HistoryRow) := by
  refine ⟨rfl, rfl, rfl⟩

/-- C4 (amended): the row update and the history append of
`updatePackageStatus` are two separate autocommit statements.  If the
history append fails, the already-committed status update stays in the
store (the resulting store is exactly the updated one with an unchanged
history table) and the error propagates; when it succeeds the combined
effect is that of `updatePackageStatus`. -/
theorem updatePackageStatus_is_not_atomic (db : Db) (id : Nat) (p : Pkg) (st : PkgStatus)
    (cb : Nat) (notes : Option Note) (now : Nat)
    (hfind : getPackage db id = some p) :
    (updatePackageStatusFallible db id st cb notes now false).1 = Except.error () ∧
    (updatePackageStatusFallible db id st cb notes now false).2 = setStatusRows db id st now ∧
    (updatePackageStatusFallible db id st cb notes now false).2.history = db.history ∧
    (updatePackageStatusFallible db id st cb notes now true).2 =
      (updatePackageStatus db id st cb notes now).2 := by
  refine ⟨?_, ?_, ?_, ?_⟩ <;>
    simp [updatePackageStatusFallible, updatePackageStatus, hfind, setStatusRows]

/-- Witness for C4's amended theorem on a concrete store. -/
theorem updatePackageStatus_is_not_atomic_witness :
    (updatePackageStatusFallible egAssignedDb 1 PkgStatus.picked_up 5 none 4 false).1 =
      Except.error () ∧
    (updatePackageStatusFallible egAssignedDb 1 PkgStatus.picked_up 5 none 4 false).2 =
      setStatusRows egAssignedDb 1 PkgStatus.picked_up 4 ∧
    (updatePackageStatusFallible egAssignedDb 1 PkgStatus.picked_up 5 none 4 false).2.history =
      egAssignedDb.history ∧
    (updatePackageStatusFallible egAssignedDb 1 PkgStatus.picked_up 5 none 4 true).2 =
      (updatePackageStatus egAssignedDb 1 PkgStatus.picked_up 5 none 4).2 :=
  updatePackageStatus_is_not_atomic egAssignedDb 1
    { id := 1, barcode := 10, status := PkgStatus.assigned,
      assignedKurirId := some 5, deliveredAt := none, createdAt := 0, updatedAt := 0 }
    PkgStatus.picked_up 5 none 4 rfl

/-- C2 (counterexample): `POST /api/packages` parses the body with
`insertPackageSchema`, which accepts `assignedKurirId`; creating a package
with `assignedKurirId = 7` and no `status` yields a stored row with
`status = created` and a non-null assignee, violating the invariant
"assignedKurirId non-null iff status ≠ created" right after creation. -/
theorem create_violates_assignment_invariant :
    ((createPackage ⟨[], [], [], []⟩ ⟨none, some 7⟩ 1 11 0).1 ∈
      (createPackage ⟨[], [], [], []⟩ ⟨none, some 7⟩ 1 11 0).2.packages) ∧
    ¬ pkgInv (createPackage ⟨[], [], [], []⟩ ⟨none, some 7⟩ 1 11 0).1 := by
  constructor
  · decide
  · intro h
    exact absurd (h.mp (by decide)) (by decide)

lemma applyStatus_id (st : PkgStatus) (now : Nat) (p : Pkg) :
    (applyStatus st now p).id = p.id := rfl

lemma logBarcodeScan_packages (db : Db) (a b : Nat) (c : ScanType)
    (d : Option (ℚ × ℚ)) : (logBarcodeScan db a b c d).packages = db.packages := rfl

lemma mem_of_mem_getPackages {db : Db} {n : Nat} {p : Pkg}
    (h : p ∈ getPackages db n) : p ∈ db.packages := by
  have h1 := List.take_subset _ _ h
  exact (List.mem_insertionSort _).mp h1

lemma find?_map_update_status (l : List Pkg) (id : Nat) (st : PkgStatus) (now : Nat)
    (hex : (l.find? (fun q => q.id == id)).isSome) :
    ((l.map (fun q => if q.id == id then applyStatus st now q else q)).find?
        (fun q => q.id == id)).map (fun q => q.status) = some st := by
  induction l with
  | nil => simp [List.find?] at hex
  | cons a t ih =>
      by_cases h : a.id = id
      · simp [List.find?, h, applyStatus]
      · simp only [List.map_cons, if_neg (by simp [h] : ¬ ((a.id == id) = true))]
        rw [List.find?_cons_of_neg _ (by simp [h])]
        exact ih (by rwa [List.find?_cons_of_neg _ (by simp [h])] at hex)

lemma statusOf_updatePackageStatus (db : Db) (id : Nat) (st : PkgStatus)
    (cb : Nat) (notes : Option Note) (now : Nat)
    (hex : (getPackage db id).isSome) :
    statusOf (updatePackageStatus db id st cb notes now).2 id = some st := by
  rcases ho : getPackage db id with _ | p
  · rw [ho] at hex; simp at hex
  · have ho' : db.packages.find? (fun q => q.id == id) = some p := ho
    simp only [updatePackageStatus, getPackage, ho', setStatusRows, statusOf]
    exact find?_map_update_status db.packages id st now (by simp [ho'])

/-- C5 (amended): for a package the scan lookup can see — found by barcode
within `getPackages`'s window of the 50 most recently created rows —
`scanBarcode` succeeds with `pickup` iff the status is exactly `assigned`
(advancing it to `picked_up`), and with `delivery` iff the status is
exactly `in_transit` (advancing it to `delivered`); every other
combination fails with the invalid-scan error for that scan type and
leaves the store unchanged.  A package outside the window cannot be
scanned at all (see the counterexample). -/
theorem scanBarcode_validity (db : Db) (bc sb : Nat) (st : ScanType)
    (loc : Option (ℚ × ℚ)) (now : Nat) (p : Pkg)
    (hfind : (getPackages db 50).find? (fun q => q.barcode == bc) = some p) :
    ((∃ q db', scanBarcode db bc sb st loc now = (Except.ok q, db')) ↔
      ((st = ScanType.pickup ∧ p.status = PkgStatus.assigned) ∨
       (st = ScanType.delivery ∧ p.status = PkgStatus.in_transit))) ∧
    (st = ScanType.pickup → p.status = PkgStatus.assigned →
      statusOf (scanBarcode db bc sb st loc now).2 p.id = some PkgStatus.picked_up) ∧
    (st = ScanType.delivery → p.status = PkgStatus.in_transit →
      statusOf (scanBarcode db bc sb st loc now).2 p.id = some PkgStatus.delivered) ∧
    (¬ ((st = ScanType.pickup ∧ p.status = PkgStatus.assigned) ∨
        (st = ScanType.delivery ∧ p.status = PkgStatus.in_transit)) →
      (scanBarcode db bc sb st loc now).1 =
        Except.error (if st = ScanType.pickup then ApiError.notReadyForPickup
                      else ApiError.notReadyForDelivery) ∧
      (scanBarcode db bc sb st loc now).2 = db) := by
  have hmem : p ∈ db.packages :=
    mem_of_mem_getPackages (List.mem_of_find?_eq_some hfind)
  have hex : (getPackage db p.id).isSome := by
    rw [getPackage, List.find?_isSome]
    exact ⟨p, hmem, by simp⟩
  cases st with
  | pickup =>
      by_cases hst : p.status = PkgStatus.assigned
      · refine ⟨?_, ?_, ?_, ?_⟩
        · simp [scanBarcode, hfind, hst]
        · intro _ _
          simp only [scanBarcode, hfind, hst]
          exact statusOf_updatePackageStatus db p.id PkgStatus.picked_up sb none now hex
        · intro h1 _
          exact absurd h1 (by decide)
        · intro h
          exact absurd (Or.inl ⟨rfl, hst⟩) h
      · refine ⟨?_, ?_, ?_, ?_⟩
        · simp [scanBarcode, hfind, hst]
        · intro _ h2
          exact absurd h2 hst
        · intro h1 _
          exact absurd h1 (by decide)
        · intro _
          simp [scanBarcode, hfind, hst]
  | delivery =>
      by_cases hst : p.status = PkgStatus.in_transit
      · refine ⟨?_, ?_, ?_, ?_⟩
        · simp [scanBarcode, hfind, hst]
        · intro h1 _
          exact absurd h1 (by decide)
        · intro _ _
          simp only [scanBarcode, hfind, hst]
          exact statusOf_updatePackageStatus db p.id PkgStatus.delivered sb none now hex
        · intro h
          exact absurd (Or.inr ⟨rfl, hst⟩) h
      · refine ⟨?_, ?_, ?_, ?_⟩
        · simp [scanBarcode, hfind, hst]
        · intro h1 _
          exact absurd h1 (by decide)
        · intro _ h2
          exact absurd h2 hst
        · intro _
          simp [scanBarcode, hfind, hst]

/-- Witness for C5 at a concrete store: a pickup scan of the assigned
package with barcode 10. -/
theorem scanBarcode_validity_witness :
    ((∃ q db', scanBarcode egAssignedDb 10 9 ScanType.pickup none 4 = (Except.ok q, db')) ↔
      ((ScanType.pickup = ScanType.pickup ∧
          ({ id := 1, barcode := 10, status := PkgStatus.assigned, assignedKurirId := some 5,
             deliveredAt := none, createdAt := 0, updatedAt := 0 } : Pkg).status = PkgStatus.assigned) ∨
       (ScanType.pickup = ScanType.delivery ∧
          ({ id := 1, barcode := 10, status := PkgStatus.assigned, assignedKurirId := some 5,
             deliveredAt := none, createdAt := 0, updatedAt := 0 } : Pkg).status = PkgStatus.in_transit))) ∧
    (ScanType.pickup = ScanType.pickup →
      ({ id := 1, barcode := 10, status := PkgStatus.assigned, assignedKurirId := some 5,
         deliveredAt := none, createdAt := 0, updatedAt := 0 } : Pkg).status = PkgStatus.assigned →
      statusOf (scanBarcode egAssignedDb 10 9 ScanType.pickup none 4).2
          ({ id := 1, barcode := 10, status := PkgStatus.assigned, assignedKurirId := some 5,
             deliveredAt := none, createdAt := 0, updatedAt := 0 } : Pkg).id = some PkgStatus.picked_up) ∧
    (ScanType.pickup = ScanType.delivery →
      ({ id := 1, barcode := 10, status := PkgStatus.assigned, assignedKurirId := some 5,
         deliveredAt := none, createdAt := 0, updatedAt := 0 } : Pkg).status = PkgStatus.in_transit →
      statusOf (scanBarcode egAssignedDb 10 9 ScanType.pickup none 4).2
          ({ id := 1, barcode := 10, status := PkgStatus.assigned, assignedKurirId := some 5,
             deliveredAt := none, createdAt := 0, updatedAt := 0 } : Pkg).id = some PkgStatus.delivered) ∧
    (¬ ((ScanType.pickup = ScanType.pickup ∧
          ({ id := 1, barcode := 10, status := PkgStatus.assigned, assignedKurirId := some 5,
             deliveredAt := none, createdAt := 0, updatedAt := 0 } : Pkg).status = PkgStatus.assigned) ∨
        (ScanType.pickup = ScanType.delivery ∧
          ({ id := 1, barcode := 10, status := PkgStatus.assigned, assignedKurirId := some 5,
             deliveredAt := none, createdAt := 0, updatedAt := 0 } : Pkg).status = PkgStatus.in_transit)) →
      (scanBarcode egAssignedDb 10 9 ScanType.pickup none 4).1 =
        Except.error (if ScanType.pickup = ScanType.pickup then ApiError.notReadyForPickup
                      else ApiError.notReadyForDelivery) ∧
      (scanBarcode egAssignedDb 10 9 ScanType.pickup none 4).2 = egAssignedDb) :=
  scanBarcode_validity egAssignedDb 10 9 ScanType.pickup none 4
    { id := 1, barcode := 10, status := PkgStatus.assigned, assignedKurirId := some 5,
      deliveredAt := none, createdAt := 0, updatedAt := 0 } rfl

/-- C10 (amended): `scanBarcode` never checks that the scanning courier is
the package's assignee — for a package its lookup can see (found by
barcode among the 50 most recently created rows), a scan by any courier id
(here `k2`, different from the assignee `k1`) succeeds from a scannable
status and advances the package — whereas the manual pickup/delivery
endpoints reject a caller who is not the assigned courier and leave the
store unchanged.  A package outside the lookup window cannot be scanned by
anyone (see the counterexample). -/
theorem scan_ignores_courier_ownership (db : Db) (bc : Nat) (p : Pkg) (k1 k2 now : Nat)
    (hfindb : (getPackages db 50).find? (fun q => q.barcode == bc) = some p)
    (hfindid : getPackage db p.id = some p)
    (hown : p.assignedKurirId = some k1)
    (hne : k2 ≠ k1) :
    (p.status = PkgStatus.assigned →
      (scanBarcode db bc k2 ScanType.pickup none now).1 = Except.ok p ∧
      statusOf (scanBarcode db bc k2 ScanType.pickup none now).2 p.id =
        some PkgStatus.picked_up ∧
      manualPickup db p.id k2 none now = (Except.error ApiError.notAssignedToYou, db)) ∧
    (p.status = PkgStatus.in_transit →
      (scanBarcode db bc k2 ScanType.delivery none now).1 = Except.ok p ∧
      statusOf (scanBarcode db bc k2 ScanType.delivery none now).2 p.id =
        some PkgStatus.delivered ∧
      ∀ note : Note, manualDelivery db p.id k2 (some note) now =
        (Except.error ApiError.notAssignedToYou, db)) := by
  have hex : (getPackage db p.id).isSome := by simp [hfindid]
  have hne' : some k1 ≠ some k2 := by
    intro h
    exact hne (Option.some.inj h).symm
  constructor
  · intro hst
    refine ⟨?_, ?_, ?_⟩
    · simp [scanBarcode, hfindb, hst]
    · simp only [scanBarcode, hfindb, hst]
      exact statusOf_updatePackageStatus db p.id PkgStatus.picked_up k2 none now hex
    · simp [manualPickup, hfindid, hst, hown, hne']
  · intro hst
    refine ⟨?_, ?_, ?_⟩
    · simp [scanBarcode, hfindb, hst]
    · simp only [scanBarcode, hfindb, hst]
      exact statusOf_updatePackageStatus db p.id PkgStatus.delivered k2 none now hex
    · intro note
      simp [manualDelivery, hfindid, hst, hown, hne']

/-- Witness for C10: courier 9 pickup-scans the package assigned to
courier 5 in a concrete store. -/
theorem scan_ignores_courier_ownership_witness :
    (({ id := 1, barcode := 10, status := PkgStatus.assigned, assignedKurirId := some 5,
        deliveredAt := none, createdAt := 0, updatedAt := 0 } : Pkg).status = PkgStatus.assigned →
      (scanBarcode egAssignedDb 10 9 ScanType.pickup none 4).1 =
        Except.ok { id := 1, barcode := 10, status := PkgStatus.assigned,
                    assignedKurirId := some 5, deliveredAt := none, createdAt := 0, updatedAt := 0 } ∧
      statusOf (scanBarcode egAssignedDb 10 9 ScanType.pickup none 4).2
          ({ id := 1, barcode := 10, status := PkgStatus.assigned, assignedKurirId := some 5,
             deliveredAt := none, createdAt := 0, updatedAt := 0 } : Pkg).id = some PkgStatus.picked_up ∧
      manualPickup egAssignedDb
          ({ id := 1, barcode := 10, status := PkgStatus.assigned, assignedKurirId := some 5,
             deliveredAt := none, createdAt := 0, updatedAt := 0 } : Pkg).id 9 none 4 =
        (Except.error ApiError.notAssignedToYou, egAssignedDb)) ∧
    (({ id := 1, barcode := 10, status := PkgStatus.assigned, assignedKurirId := some 5,
        deliveredAt := none, createdAt := 0, updatedAt := 0 } : Pkg).status = PkgStatus.in_transit →
      (scanBarcode egAssignedDb 10 9 ScanType.delivery none 4).1 =
        Except.ok { id := 1, barcode := 10, status := PkgStatus.assigned,
                    assignedKurirId := some 5, deliveredAt := none, createdAt := 0, updatedAt := 0 } ∧
      statusOf (scanBarcode egAssignedDb 10 9 ScanType.delivery none 4).2
          ({ id := 1, barcode := 10, status := PkgStatus.assigned, assignedKurirId := some 5,
             deliveredAt := none, createdAt := 0, updatedAt := 0 } : Pkg).id = some PkgStatus.delivered ∧
      ∀ note : Note, manualDelivery egAssignedDb
          ({ id := 1, barcode := 10, status := PkgStatus.assigned, assignedKurirId := some 5,
             deliveredAt := none, createdAt := 0, updatedAt := 0 } : Pkg).id 9 (some note) 4 =
        (Except.error ApiError.notAssignedToYou, egAssignedDb)) :=
  scan_ignores_courier_ownership egAssignedDb 10
    { id := 1, barcode := 10, status := PkgStatus.assigned, assignedKurirId := some 5,
      deliveredAt := none, createdAt := 0, updatedAt := 0 } 5 9 4 rfl rfl rfl (by decide)

lemma pkgInv_applyStatus {p : Pkg} (hp : p.assignedKurirId.isSome = true)
    {st : PkgStatus} (hst : st ≠ PkgStatus.created) (now : Nat) :
    pkgInv (applyStatus st now p) := by
  simp [pkgInv, applyStatus, hp, hst]

lemma pkgInv_claimWrite (now k : Nat) (p : Pkg) : pkgInv (claimWrite now k p) := by
  simp [pkgInv, claimWrite]

lemma find?_id_of_mem {l : List Pkg} (huniq : l.Pairwise (fun p q => p.id ≠ q.id))
    {p : Pkg} (hp : p ∈ l) : l.find? (fun q => q.id == p.id) = some p := by
  induction l with
  | nil => cases hp
  | cons a t ih =>
      rcases List.pairwise_cons.mp huniq with ⟨hhead, htail⟩
      rcases List.mem_cons.mp hp with rfl | hpt
      · rw [List.find?_cons_of_pos _ (by simp)]
      · rw [List.find?_cons_of_neg _ (by simp [hhead p hpt])]
        exact ih htail hpt

lemma eq_of_find?_id {l : List Pkg} (huniq : l.Pairwise (fun p q => p.id ≠ q.id))
    {id : Nat} {p : Pkg} (hfind : l.find? (fun q => q.id == id) = some p)
    {r : Pkg} (hr : r ∈ l) (hid : r.id = id) : r = p := by
  have h1 : l.find? (fun q => q.id == r.id) = some r := find?_id_of_mem huniq hr
  rw [hid] at h1
  rw [h1] at hfind
  exact Option.some.inj hfind

lemma inv_preserved_map_update {l : List Pkg} {id : Nat} {st : PkgStatus} {now : Nat}
    (hdb : ∀ p ∈ l, pkgInv p)
    (hassigned : ∀ p ∈ l, p.id = id → p.assignedKurirId.isSome = true)
    (hst : st ≠ PkgStatus.created) :
    ∀ q ∈ l.map (fun r => if r.id == id then applyStatus st now r else r), pkgInv q := by
  intro q hq
  rcases List.mem_map.mp hq with ⟨r, hr, rfl⟩
  by_cases h : r.id = id
  · rw [if_pos (by simp [h])]
    exact pkgInv_applyStatus (hassigned r hr h) hst now
  · rw [if_neg (by simp [h])]
    exact hdb r hr

lemma updatePackageStatus_packages_of_found (db : Db) (id : Nat) (p : Pkg)
    (st : PkgStatus) (cb : Nat) (notes : Option Note) (now : Nat)
    (hg : getPackage db id = some p) :
    (updatePackageStatus db id st cb notes now).2.packages =
      db.packages.map (fun r => if r.id == id then applyStatus st now r else r) := by
  have hg' : db.packages.find? (fun q => q.id == id) = some p := hg
  simp [updatePackageStatus, getPackage, hg', setStatusRows]

lemma assignPackageToKurir_packages (db : Db) (pid kid aby now : Nat) :
    (assignPackageToKurir db pid kid aby now).2.packages = db.packages ∨
    (assignPackageToKurir db pid kid aby now).2.packages =
      db.packages.map
        (fun x => if x.id == pid && claimGuard x then claimWrite now kid x else x) := by
  rcases hf : db.packages.find? (fun p => p.id == pid && claimGuard p) with _ | r
  · left; simp [assignPackageToKurir, hf]
  · right; simp [assignPackageToKurir, hf]

lemma takePackage_db (db : Db) (pid kid now : Nat) :
    (takePackage db pid kid now).2 = db ∨
    (takePackage db pid kid now).2 = (assignPackageToKurir db pid kid kid now).2 := by
  rcases hg : getPackage db pid with _ | p
  · left; simp [takePackage, hg]
  · by_cases h1 : p.status = PkgStatus.created
    · by_cases h2 : p.assignedKurirId.isSome
      · left; simp [takePackage, hg, h1, h2]
      · right
        rcases ha : assignPackageToKurir db pid kid kid now with ⟨e, d⟩
        cases e <;> simp [takePackage, hg, h1, h2, ha]
    · left; simp [takePackage, hg, h1]

lemma scanBarcode_db (db : Db) (bc sb : Nat) (st : ScanType)
    (loc : Option (ℚ × ℚ)) (now : Nat) :
    (scanBarcode db bc sb st loc now).2 = db ∨
    ∃ p, (getPackages db 50).find? (fun x => x.barcode == bc) = some p ∧
      ((st = ScanType.pickup ∧ p.status = PkgStatus.assigned ∧
        (scanBarcode db bc sb st loc now).2.packages =
          (updatePackageStatus db p.id PkgStatus.picked_up sb none now).2.packages) ∨
       (st = ScanType.delivery ∧ p.status = PkgStatus.in_transit ∧
        (scanBarcode db bc sb st loc now).2.packages =
          (updatePackageStatus db p.id PkgStatus.delivered sb none now).2.packages)) := by
  rcases hf : (getPackages db 50).find? (fun x => x.barcode == bc) with _ | p
  · left; simp [scanBarcode, hf]
  · cases st with
    | pickup =>
        by_cases hst : p.status = PkgStatus.assigned
        · right
          exact ⟨p, hf, Or.inl ⟨rfl, hst, by simp [scanBarcode, hf, hst, logBarcodeScan_packages]⟩⟩
        · left; simp [scanBarcode, hf, hst]
    | delivery =>
        by_cases hst : p.status = PkgStatus.in_transit
        · right
          exact ⟨p, hf, Or.inr ⟨rfl, hst, by simp [scanBarcode, hf, hst, logBarcodeScan_packages]⟩⟩
        · left; simp [scanBarcode, hf, hst]

lemma manualPickup_db (db : Db) (pid kid : Nat) (notes : Option Note) (now : Nat) :
    (manualPickup db pid kid notes now).2 = db ∨
    ∃ p, getPackage db pid = some p ∧ p.status = PkgStatus.assigned ∧
      p.assignedKurirId = some kid ∧
      (manualPickup db pid kid notes now).2.packages =
        (updatePackageStatus db pid PkgStatus.picked_up kid
          (some (notes.getD Note.manualPickupDefault)) now).2.packages := by
  rcases hg : getPackage db pid with _ | p
  · left; simp [manualPickup, hg]
  · by_cases h1 : p.status = PkgStatus.assigned
    · by_cases h2 : p.assignedKurirId = some kid
      · right
        exact ⟨p, rfl, h1, h2, by simp [manualPickup, hg, h1, h2, logBarcodeScan_packages]⟩
      · left; simp [manualPickup, hg, h1, h2]
    · left; simp [manualPickup, hg, h1]

lemma manualDelivery_db (db : Db) (pid kid : Nat) (notes : Option Note) (now : Nat) :
    (manualDelivery db pid kid notes now).2 = db ∨
    ∃ p note, notes = some note ∧ getPackage db pid = some p ∧
      (p.status = PkgStatus.picked_up ∨ p.status = PkgStatus.in_transit) ∧
      p.assignedKurirId = some kid ∧
      (manualDelivery db pid kid notes now).2.packages =
        (updatePackageStatus db pid PkgStatus.delivered kid (some note) now).2.packages := by
  rcases hn : notes with _ | note
  · left; simp [manualDelivery]
  · rcases hg : getPackage db pid with _ | p
    · left; simp [manualDelivery, hg]
    · by_cases h1 : p.status = PkgStatus.picked_up ∨ p.status = PkgStatus.in_transit
      · by_cases h2 : p.assignedKurirId = some kid
        · right
          refine ⟨p, note, rfl, rfl, h1, h2, ?_⟩
          rcases h1 with h1 | h1 <;>
            simp [manualDelivery, hg, h1, h2, logBarcodeScan_packages]
        · left
          rcases h1 with h1 | h1 <;> simp [manualDelivery, hg, h1, h2]
      · left
        push_neg at h1
        simp [manualDelivery, hg, h1.1, h1.2]

/-- C2 (amended): the mutating core operations — claim, explicit
assignment, barcode scan, manual pickup and manual delivery — all preserve
the invariant "assignedKurirId non-null iff status ≠ created" on every
package, and creation establishes it when the request body carries neither
`status` nor `assignedKurirId`; creation with a client-supplied `status`
or `assignedKurirId` can violate it (see the counterexample). -/
theorem core_operations_preserve_invariant (db : Db)
    (huniq : UniqueIds db) (hdb : ∀ p ∈ db.packages, pkgInv p) :
    (∀ data : InsertPkg, data.status = none → data.assignedKurirId = none →
      ∀ newId newBarcode now : Nat,
        ∀ q ∈ (createPackage db data newId newBarcode now).2.packages, pkgInv q) ∧
    (∀ pid kid now : Nat, ∀ q ∈ (takePackage db pid kid now).2.packages, pkgInv q) ∧
    (∀ pid kid aby now : Nat,
        ∀ q ∈ (assignPackageToKurir db pid kid aby now).2.packages, pkgInv q) ∧
    (∀ (bc sb : Nat) (st : ScanType) (loc : Option (ℚ × ℚ)) (now : Nat),
        ∀ q ∈ (scanBarcode db bc sb st loc now).2.packages, pkgInv q) ∧
    (∀ (pid kid : Nat) (notes : Option Note) (now : Nat),
        ∀ q ∈ (manualPickup db pid kid notes now).2.packages, pkgInv q) ∧
    (∀ (pid kid : Nat) (notes : Option Note) (now : Nat),
        ∀ q ∈ (manualDelivery db pid kid notes now).2.packages, pkgInv q) := by
  have hu : db.packages.Pairwise (fun p q => p.id ≠ q.id) := huniq
  have hupd : ∀ (id : Nat) (p : Pkg) (st : PkgStatus) (cb : Nat) (notes : Option Note)
      (now : Nat), getPackage db id = some p → p.assignedKurirId.isSome = true →
      st ≠ PkgStatus.created →
      ∀ q ∈ (updatePackageStatus db id st cb notes now).2.packages, pkgInv q := by
    intro id p st cb notes now hg hiso hst q hq
    rw [updatePackageStatus_packages_of_found db id p st cb notes now hg] at hq
    refine inv_preserved_map_update hdb ?_ hst q hq
    intro r hr hid
    rw [eq_of_find?_id hu hg hr hid]
    exact hiso
  have hassignAll : ∀ pid kid aby now : Nat,
      ∀ q ∈ (assignPackageToKurir db pid kid aby now).2.packages, pkgInv q := by
    intro pid kid aby now q hq
    rcases assignPackageToKurir_packages db pid kid aby now with h | h
    · rw [h] at hq; exact hdb q hq
    · rw [h] at hq
      rcases List.mem_map.mp hq with ⟨x, hx, rfl⟩
      by_cases hc : (x.id == pid && claimGuard x) = true
      · rw [if_pos hc]; exact pkgInv_claimWrite now kid x
      · rw [if_neg hc]; exact hdb x hx
  refine ⟨?_, ?_, hassignAll, ?_, ?_, ?_⟩
  · intro data h1 h2 newId newBarcode now q hq
    have hq' : q ∈ db.packages ++ [{ id := newId, barcode := newBarcode,
                                      status := data.status.getD PkgStatus.created,
                                      assignedKurirId := data.assignedKurirId,
                                      deliveredAt := none, createdAt := now,
                                      updatedAt := now }] := hq
    rcases List.mem_append.mp hq' with hql | hqr
    · exact hdb q hql
    · rw [List.mem_singleton] at hqr
      subst hqr
      simp [pkgInv, h1, h2]
  · intro pid kid now q hq
    rcases takePackage_db db pid kid now with h | h
    · rw [h] at hq; exact hdb q hq
    · rw [h] at hq; exact hassignAll pid kid kid now q hq
  · intro bc sb st loc now q hq
    rcases scanBarcode_db db bc sb st loc now with h | ⟨p, hf, hcase⟩
    · rw [h] at hq; exact hdb q hq
    · have hmem := mem_of_mem_getPackages (List.mem_of_find?_eq_some hf)
      have hgid : getPackage db p.id = some p := find?_id_of_mem hu hmem
      rcases hcase with ⟨-, hst, hpk⟩ | ⟨-, hst, hpk⟩
      · rw [hpk] at hq
        refine hupd p.id p PkgStatus.picked_up sb none now hgid ?_ (by decide) q hq
        exact (hdb p hmem).mpr (by rw [hst]; decide)
      · rw [hpk] at hq
        refine hupd p.id p PkgStatus.delivered sb none now hgid ?_ (by decide) q hq
        exact (hdb p hmem).mpr (by rw [hst]; decide)
  · intro pid kid notes now q hq
    rcases manualPickup_db db pid kid notes now with h | ⟨p, hg, hst, hown, hpk⟩
    · rw [h] at hq; exact hdb q hq
    · rw [hpk] at hq
      refine hupd pid p PkgStatus.picked_up kid _ now hg ?_ (by decide) q hq
      simp [hown]
  · intro pid kid notes now q hq
    rcases manualDelivery_db db pid kid notes now with h | ⟨p, note, hn, hg, hst, hown, hpk⟩
    · rw [h] at hq; exact hdb q hq
    · rw [hpk] at hq
      refine hupd pid p PkgStatus.delivered kid _ now hg ?_ (by decide) q hq
      simp [hown]

/-- Witness for C2's amended theorem at a concrete store satisfying the
invariant. -/
theorem core_operations_preserve_invariant_witness :
    (∀ data : InsertPkg, data.status = none → data.assignedKurirId = none →
      ∀ newId newBarcode now : Nat,
        ∀ q ∈ (createPackage egAssignedDb data newId newBarcode now).2.packages, pkgInv q) ∧
    (∀ pid kid now : Nat,
        ∀ q ∈ (takePackage egAssignedDb pid kid now).2.packages, pkgInv q) ∧
    (∀ pid kid aby now : Nat,
        ∀ q ∈ (assignPackageToKurir egAssignedDb pid kid aby now).2.packages, pkgInv q) ∧
    (∀ (bc sb : Nat) (st : ScanType) (loc : Option (ℚ × ℚ)) (now : Nat),
        ∀ q ∈ (scanBarcode egAssignedDb bc sb st loc now).2.packages, pkgInv q) ∧
    (∀ (pid kid : Nat) (notes : Option Note) (now : Nat),
        ∀ q ∈ (manualPickup egAssignedDb pid kid notes now).2.packages, pkgInv q) ∧
    (∀ (pid kid : Nat) (notes : Option Note) (now : Nat),
        ∀ q ∈ (manualDelivery egAssignedDb pid kid notes now).2.packages, pkgInv q) :=
  core_operations_preserve_invariant egAssignedDb
    (by simp [UniqueIds, egAssignedDb]) (by simp [egAssignedDb, pkgInv])

lemma map_fst_set {l : List (Nat × ThreadPhase)} {i k : Nat} {ph ph' : ThreadPhase}
    (h : l[i]? = some (k, ph)) :
    (l.set i (k, ph')).map Prod.fst = l.map Prod.fst := by
  induction l generalizing i with
  | nil => simp at h
  | cons a t ih =>
      cases i with
      | zero =>
          have ha : a = (k, ph) := by simpa using h
          subst ha
          simp [List.set]
      | succ n =>
          have h' : t[n]? = some (k, ph) := by simpa using h
          simp [List.set, ih h']

lemma winner_preserved_set {now : Nat} {pkg0 : Pkg} {c : ClaimConfig} {i k : Nat}
    {ph : ThreadPhase} (hph : ph ≠ ThreadPhase.finished ClaimResult.success)
    {ph0 : ThreadPhase} (hi0 : c.threads[i]? = some (k, ph0))
    (hph0 : ph0 ≠ ThreadPhase.finished ClaimResult.success)
    (hwin : Winner now pkg0 c) :
    Winner now pkg0 ⟨c.pkg, c.threads.set i (k, ph)⟩ := by
  obtain ⟨j, k', hj, hpkgeq, huniq⟩ := hwin
  have hij : j ≠ i := by
    intro h
    subst h
    rw [hi0] at hj
    have hpair := Option.some.inj hj
    exact hph0 (congrArg Prod.snd hpair)
  refine ⟨j, k', ?_, hpkgeq, ?_⟩
  · rw [List.getElem?_set_ne (Ne.symm hij)]
    exact hj
  · intro j' e hj' hget
    by_cases hj'i : j' = i
    · subst hj'i
      have hlen : j' < c.threads.length := (List.getElem?_eq_some_iff.mp hi0).1
      rw [List.getElem?_set_self hlen] at hget
      have he := Option.some.inj hget
      rw [← he]
      exact hph
    · rw [List.getElem?_set_ne (Ne.symm hj'i)] at hget
      exact huniq j' e hj' hget

lemma claimInv_init (now : Nat) (pkg0 : Pkg) (ids : List Nat) :
    ClaimInv now pkg0 ids (initConfig pkg0 ids) := by
  refine ⟨?_, Or.inl ⟨rfl, ?_⟩⟩
  · simp [initConfig, Function.comp_def]
  · intro e he
    simp only [initConfig] at he
    rcases List.mem_map.mp he with ⟨k, hk, rfl⟩
    exact Or.inl rfl

lemma claimInv_step {now : Nat} {pkg0 : Pkg} {ids : List Nat} {c c' : ClaimConfig}
    (hcreated : pkg0.status = PkgStatus.created)
    (hunassigned : pkg0.assignedKurirId = none)
    (hinv : ClaimInv now pkg0 ids c) (hstep : ClaimStep now c c') :
    ClaimInv now pkg0 ids c' := by
  obtain ⟨hfst, hphase⟩ := hinv
  have hpre0 : precheck pkg0 = true := by simp [precheck, hcreated, hunassigned]
  have hguard0 : claimGuard pkg0 = true := by simp [claimGuard, hunassigned]
  cases hstep with
  | read i k hi =>
      refine ⟨by rw [map_fst_set hi]; exact hfst, ?_⟩
      rcases hphase with ⟨hpkg, hall⟩ | hwin
      · left
        refine ⟨hpkg, ?_⟩
        intro e he
        rcases List.mem_or_eq_of_mem_set he with he' | rfl
        · exact hall e he'
        · right
          rw [hpkg]
      · right
        exact winner_preserved_set (by simp) hi (by simp) hwin
  | precheckFail i k snap hi hpre =>
      refine ⟨by rw [map_fst_set hi]; exact hfst, ?_⟩
      rcases hphase with ⟨hpkg, hall⟩ | hwin
      · exfalso
        have hmem := List.getElem?_mem hi
        rcases hall _ hmem with hp | hp
        · exact absurd hp (by simp)
        · have hsnap : snap = pkg0 := by
            have := congrArg (fun ph => ph) hp
            injection hp
          rw [hsnap] at hpre
          rw [hpre0] at hpre
          cases hpre
      · right
        exact winner_preserved_set (by simp) hi (by simp) hwin
  | casOk i k snap hi hpre hguard =>
      refine ⟨by rw [map_fst_set hi]; exact hfst, ?_⟩
      rcases hphase with ⟨hpkg, hall⟩ | hwin
      · right
        have hlen : i < c.threads.length := (List.getElem?_eq_some_iff.mp hi).1
        refine ⟨i, k, ?_, by rw [hpkg], ?_⟩
        · rw [List.getElem?_set_self hlen]
        · intro j e hj hget
          rw [List.getElem?_set_ne (Ne.symm hj)] at hget
          rcases hall e (List.getElem?_mem hget) with hp | hp
          · rw [hp]; simp
          · rw [hp]; simp
      · exfalso
        obtain ⟨j, k', hj, hpkgeq, huniq⟩ := hwin
        rw [hpkgeq] at hguard
        simp [claimGuard, claimWrite] at hguard
  | casFail i k snap hi hpre hguard =>
      refine ⟨by rw [map_fst_set hi]; exact hfst, ?_⟩
      rcases hphase with ⟨hpkg, hall⟩ | hwin
      · exfalso
        rw [hpkg] at hguard
        rw [hguard0] at hguard
        cases hguard
      · right
        exact winner_preserved_set (by simp) hi (by simp) hwin

lemma claimInv_reach {now : Nat} {pkg0 : Pkg} {ids : List Nat} {c : ClaimConfig}
    (hcreated : pkg0.status = PkgStatus.created)
    (hunassigned : pkg0.assignedKurirId = none)
    (hreach : Relation.ReflTransGen (ClaimStep now) (initConfig pkg0 ids) c) :
    ClaimInv now pkg0 ids c := by
  induction hreach with
  | refl => exact claimInv_init now pkg0 ids
  | tail hsteps hstep ih => exact claimInv_step hcreated hunassigned ih hstep

lemma countP_success_eq_one {l : List (Nat × ThreadPhase)} {i : Nat} {x : Nat × ThreadPhase}
    (hx : l[i]? = some x)
    (hpx : (x.2 == ThreadPhase.finished ClaimResult.success) = true)
    (huniq : ∀ (j : Nat) (e : Nat × ThreadPhase), j ≠ i → l[j]? = some e →
      e.2 ≠ ThreadPhase.finished ClaimResult.success) :
    l.countP (fun e => e.2 == ThreadPhase.finished ClaimResult.success) = 1 := by
  induction l generalizing i with
  | nil => simp at hx
  | cons a t ih =>
      cases i with
      | zero =>
          have hax : a = x := by simpa using hx
          subst hax
          rw [List.countP_cons_of_pos (fun e => e.2 == ThreadPhase.finished ClaimResult.success) t hpx]
          have ht : t.countP (fun e => e.2 == ThreadPhase.finished ClaimResult.success) = 0 := by
            rw [List.countP_eq_zero]
            intro e he
            obtain ⟨n, hn⟩ := List.mem_iff_getElem?.mp he
            have := huniq (n + 1) e (by omega) (by simpa using hn)
            simpa using this
          omega
      | succ n =>
          have ha : a.2 ≠ ThreadPhase.finished ClaimResult.success :=
            huniq 0 a (by omega) (by simp)
          rw [List.countP_cons_of_neg (fun e => e.2 == ThreadPhase.finished ClaimResult.success) t (by simpa using ha)]
          refine ih (i := n) (by simpa using hx) ?_
          intro j e hj hget
          exact huniq (j + 1) e (by omega) (by simpa using hget)

lemma countP_success_add_conflict {l : List (Nat × ThreadPhase)}
    (hfin : ∀ e ∈ l, ∃ r, e.2 = ThreadPhase.finished r) :
    l.countP (fun e => e.2 == ThreadPhase.finished ClaimResult.success) +
      l.countP (fun e => e.2 == ThreadPhase.finished ClaimResult.conflict) = l.length := by
  induction l with
  | nil => simp
  | cons a t ih =>
      obtain ⟨r, hr⟩ := hfin a (List.mem_cons_self a t)
      have ih' := ih (fun e he => hfin e (List.mem_cons_of_mem a he))
      cases r with
      | success =>
          rw [List.countP_cons_of_pos
                (fun e => e.2 == ThreadPhase.finished ClaimResult.success) t (by simp [hr]),
              List.countP_cons_of_neg
                (fun e => e.2 == ThreadPhase.finished ClaimResult.conflict) t (by simp [hr])]
          simp only [List.length_cons]
          omega
      | conflict =>
          rw [List.countP_cons_of_neg
                (fun e => e.2 == ThreadPhase.finished ClaimResult.success) t (by simp [hr]),
              List.countP_cons_of_pos
                (fun e => e.2 == ThreadPhase.finished ClaimResult.conflict) t (by simp [hr])]
          simp only [List.length_cons]
          omega

/-- C1: starting from a `created`, unassigned package, any interleaving of
`N ≥ 1` concurrent take requests by couriers with distinct ids that runs
every request to completion ends with exactly one request succeeding, the
other `N − 1` finishing with a conflict answer, and the package row
`assigned` to the single winning courier — never two successes and never a
lost update. -/
theorem claim_race_single_winner (now : Nat) (pkg0 : Pkg) (ids : List Nat)
    (hcreated : pkg0.status = PkgStatus.created)
    (hunassigned : pkg0.assignedKurirId = none)
    (hne : ids ≠ []) (hnodup : ids.Nodup) (c : ClaimConfig)
    (hreach : Relation.ReflTransGen (ClaimStep now) (initConfig pkg0 ids) c)
    (hfin : ∀ e ∈ c.threads, ∃ r, e.2 = ThreadPhase.finished r) :
    ∃ (k : Nat) (i : Nat),
      c.threads[i]? = some (k, ThreadPhase.finished ClaimResult.success) ∧
      c.pkg.status = PkgStatus.assigned ∧ c.pkg.assignedKurirId = some k ∧
      c.threads.countP (fun e => e.2 == ThreadPhase.finished ClaimResult.success) = 1 ∧
      c.threads.countP (fun e => e.2 == ThreadPhase.finished ClaimResult.conflict) =
        ids.length - 1 ∧
      c.threads.map Prod.fst = ids := by
  obtain ⟨hfst, hcase⟩ := claimInv_reach hcreated hunassigned hreach
  rcases hcase with ⟨hpkg, hall⟩ | ⟨i, k, hi, hpkgeq, huniq⟩
  · exfalso
    cases ht : c.threads with
    | nil =>
        rw [ht] at hfst
        exact hne (by simpa using hfst.symm)
    | cons a t =>
        have hmem : a ∈ c.threads := by rw [ht]; exact List.mem_cons_self a t
        obtain ⟨r, hr⟩ := hfin a hmem
        rcases hall a hmem with hp | hp <;> rw [hp] at hr <;> cases hr
  · refine ⟨k, i, hi, by rw [hpkgeq]; rfl, by rw [hpkgeq]; rfl, ?_, ?_, hfst⟩
    · exact countP_success_eq_one hi (by simp) huniq
    · have hsum := countP_success_add_conflict hfin
      have h1 := countP_success_eq_one hi (by simp) huniq
      have hlen : c.threads.length = ids.length := by rw [← hfst, List.length_map]
      omega

/-- Witness for C1: a concrete complete interleaving of two couriers (5
and 6) racing for `egCreatedPkg` — both read the fresh row, courier 5's
conditional update lands first, courier 6's fails its guard. -/
theorem claim_race_single_winner_witness :
    ∃ (k : Nat) (i : Nat),
      egRaceFinal.threads[i]? = some (k, ThreadPhase.finished ClaimResult.success) ∧
      egRaceFinal.pkg.status = PkgStatus.assigned ∧
      egRaceFinal.pkg.assignedKurirId = some k ∧
      egRaceFinal.threads.countP
        (fun e => e.2 == ThreadPhase.finished ClaimResult.success) = 1 ∧
      egRaceFinal.threads.countP
        (fun e => e.2 == ThreadPhase.finished ClaimResult.conflict) =
        ([5, 6] : List Nat).length - 1 ∧
      egRaceFinal.threads.map Prod.fst = [5, 6] :=
  claim_race_single_winner 7 egCreatedPkg [5, 6] rfl rfl (by decide) (by decide)
    egRaceFinal
    (Relation.ReflTransGen.tail
      (Relation.ReflTransGen.tail
        (Relation.ReflTransGen.tail
          (Relation.ReflTransGen.tail Relation.ReflTransGen.refl
            (ClaimStep.read (initConfig egCreatedPkg [5, 6]) 0 5 rfl))
          (ClaimStep.read
            ⟨egCreatedPkg, [(5, ThreadPhase.readDone egCreatedPkg), (6, ThreadPhase.start)]⟩
            1 6 rfl))
        (ClaimStep.casOk
          ⟨egCreatedPkg,
           [(5, ThreadPhase.readDone egCreatedPkg), (6, ThreadPhase.readDone egCreatedPkg)]⟩
          0 5 egCreatedPkg rfl rfl rfl))
      (ClaimStep.casFail
        ⟨claimWrite 7 5 egCreatedPkg,
         [(5, ThreadPhase.finished ClaimResult.success),
          (6, ThreadPhase.readDone egCreatedPkg)]⟩
        1 6 egCreatedPkg rfl rfl rfl))
    (fun e he => by
      rcases List.mem_cons.mp he with rfl | he'
      · exact ⟨ClaimResult.success, rfl⟩
      · rcases List.mem_cons.mp he' with rfl | he''
        · exact ⟨ClaimResult.conflict, rfl⟩
        · cases he'')

/-- C5 (counterexample): the scan lookup is capped at the 50 most recently
created rows, so a package that exists in the store in the scannable
status `assigned` but is older than the window — here the 51st-newest —
cannot be scanned: the pickup scan fails with the not-found error (not
success, and not the invalid-scan error) and the store is unchanged,
falsifying "succeeds iff status is exactly assigned". -/
theorem scan_misses_old_assigned_package :
    egOldAssignedPkg ∈ egManyDb.packages ∧
    egOldAssignedPkg.status = PkgStatus.assigned ∧
    scanBarcode egManyDb 10 9 ScanType.pickup none 4 =
      (Except.error ApiError.scanNotFound, egManyDb) :=
  ⟨List.mem_cons_self _ _, rfl, rfl⟩

/-- C10 (counterexample): the universal success part fails — the package
`egOldAssignedPkg` is in the scannable status `assigned` (assigned to
courier 5), yet a scan by courier 9 returns not-found and does not advance
the status, because the package lies outside the 50-row lookup window. -/
theorem scan_by_other_courier_misses_old_package :
    egOldAssignedPkg.status = PkgStatus.assigned ∧
    egOldAssignedPkg.assignedKurirId = some 5 ∧
    (scanBarcode egManyDb 10 9 ScanType.pickup none 4).1 =
      Except.error ApiError.scanNotFound ∧
    statusOf (scanBarcode egManyDb 10 9 ScanType.pickup none 4).2 egOldAssignedPkg.id =
      some PkgStatus.assigned :=
  ⟨rfl, rfl, rfl, rfl⟩
